/-
Verification of svtplay-dl-category.py against its specification.

The script is shallowly embedded: Python dicts keyed by URL become
association lists `List (String × _)` (preserving insertion order, as
Python dicts do), subprocess exit codes become `Int` oracles passed in as
arguments, timestamps (`datetime.now().isoformat()`) become an opaque
`String` argument `now`, and file writes become counters carried in the
state.  External library calls (`urljoin`, `datetime.fromisoformat`
subtraction) are modelled as oracle functions supplied as parameters.
-/
import Mathlib

namespace Svtplay

/-! ## Association-list model of Python dicts

Python dict assignment `d[k] = v` replaces the value in place if the key
is present and otherwise appends at the end; `del d[k]` removes the key.
-/

def setKey {β : Type} (m : List (String × β)) (k : String) (v : β) :
    List (String × β) :=
  if m.any (fun p => p.1 == k) then
    m.map (fun p => if p.1 == k then (k, v) else p)
  else
    m ++ [(k, v)]

def eraseKey {β : Type} (m : List (String × β)) (k : String) :
    List (String × β) :=
  m.filter (fun p => !(p.1 == k))

theorem lookup_cons_ne {β : Type} (ak : String) (av : β)
    (t : List (String × β)) (k : String) (h : k ≠ ak) :
    ((ak, av) :: t).lookup k = t.lookup k := by
  rw [List.lookup_cons]
  simp [beq_false_of_ne h]

theorem lookup_setKey_self {β : Type} (m : List (String × β)) (k : String)
    (v : β) : (setKey m k v).lookup k = some v := by
  induction m with
  | nil => simp [setKey]
  | cons a t ih =>
    obtain ⟨ak, av⟩ := a
    by_cases h : ak = k
    · subst h
      simp [setKey, List.any_cons]
    · have hb : (ak == k) = false := beq_false_of_ne h
      by_cases h2 : t.any (fun p => p.1 == k) = true
      · have hm : setKey t k v
            = t.map (fun p => if p.1 == k then (k, v) else p) := by
          simp [setKey, h2]
        have hgoal : ((ak, av)
            :: t.map (fun p => if p.1 == k then (k, v) else p)).lookup k
            = some v := by
          rw [lookup_cons_ne _ _ _ _ (Ne.symm h), ← hm]
          exact ih
        simpa [setKey, List.any_cons, hb, h2, h] using hgoal
      · have hm : setKey t k v = t ++ [(k, v)] := by
          simp [setKey, h2]
        have hgoal : ((ak, av) :: (t ++ [(k, v)])).lookup k = some v := by
          rw [lookup_cons_ne _ _ _ _ (Ne.symm h), ← hm]
          exact ih
        simpa [setKey, List.any_cons, hb, h2] using hgoal

theorem any_eq_false_of_lookup_none {β : Type} (m : List (String × β))
    (k : String) (h : m.lookup k = none) :
    m.any (fun p => p.1 == k) = false := by
  induction m with
  | nil => rfl
  | cons a t ih =>
    obtain ⟨ak, av⟩ := a
    by_cases hk : k = ak
    · subst hk
      simp at h
    · rw [lookup_cons_ne _ _ _ _ hk] at h
      have hb : (ak == k) = false := beq_false_of_ne (Ne.symm hk)
      simp [List.any_cons, hb, ih h]

theorem setKey_of_lookup_none {β : Type} (m : List (String × β))
    (k : String) (v : β) (h : m.lookup k = none) :
    setKey m k v = m ++ [(k, v)] := by
  simp [setKey, any_eq_false_of_lookup_none m k h]

theorem mem_setKey_self {β : Type} (m : List (String × β)) (k : String)
    (v : β) : (k, v) ∈ setKey m k v := by
  by_cases h2 : m.any (fun p => p.1 == k) = true
  · rcases List.any_eq_true.mp h2 with ⟨p, hp, hpk⟩
    simp only [setKey, h2, if_true]
    exact List.mem_map.mpr ⟨p, hp, by rw [if_pos hpk]⟩
  · simp [setKey, h2]

theorem lookup_eraseKey_self {β : Type} (m : List (String × β))
    (k : String) : (eraseKey m k).lookup k = none := by
  induction m with
  | nil => rfl
  | cons a t ih =>
    obtain ⟨ak, av⟩ := a
    by_cases h : ak = k
    · simpa [eraseKey, List.filter_cons, h] using ih
    · have hb : (ak == k) = false := beq_false_of_ne h
      have hgoal : ((ak, av) :: (eraseKey t k)).lookup k = none := by
        rw [lookup_cons_ne _ _ _ _ (Ne.symm h)]
        exact ih
      simpa [eraseKey, List.filter_cons, hb] using hgoal

/-! ## Error tracking (`errors.json`)

`ErrorEntry` models one value of the errors dict.  The Python code reads
every field through `.get` with a default (`fail_count` defaults to 0,
`permanent` to False, the stamps to absent), so the defaults are folded
into total fields here. -/

structure ErrorEntry where
  fail_count : Int
  permanent : Bool
  last_error : Option String
  last_failure : Option String
deriving Repr, DecidableEq

def defaultErrorEntry : ErrorEntry :=
  { fail_count := 0, permanent := false,
    last_error := none, last_failure := none }

abbrev ErrMap := List (String × ErrorEntry)

def is_permanent_error (errors : ErrMap) (url : String) : Bool :=
  ((errors.lookup url).map ErrorEntry.permanent).getD false

def errMsg (return_code : Int) : String :=
  "svtplay-dl exited with code " ++ toString return_code

/-- `record_error(errors, url, return_code)`: bump the fail counter,
stamp the message and time, flag permanent once the counter exceeds 2,
store back (the `save_json_state` file write is counted by callers). -/
def record_error (errors : ErrMap) (url : String) (return_code : Int)
    (now : String) : ErrMap :=
  let entry := (errors.lookup url).getD defaultErrorEntry
  let entry : ErrorEntry :=
    { entry with
      fail_count := entry.fail_count + 1,
      last_error := some (errMsg return_code),
      last_failure := some now }
  let entry := if 2 < entry.fail_count then
    { entry with permanent := true } else entry
  setKey errors url entry

/-- Previously recorded fail count for a URL (0 if no entry). -/
def prevFail (errors : ErrMap) (url : String) : Int :=
  ((errors.lookup url).map ErrorEntry.fail_count).getD 0

/-! ## svtplay-dl invocation -/

structure RunResult where
  rc : Int
  spawned : Bool
deriving Repr, DecidableEq

/-- `run_svtplay_dl`: under `--dry-run` returns 0 without spawning a
process; otherwise the child process exit code is the oracle
`external_rc` (127 stands for "tool not found"). -/
def run_svtplay_dl (dry_run : Bool) (external_rc : Int) : RunResult :=
  if dry_run then { rc := 0, spawned := false }
  else { rc := external_rc, spawned := true }

structure RetryResult where
  success : Bool
  errors : ErrMap
  launches : Nat
  errorsFileWrites : Nat
deriving Repr, DecidableEq

/-- `download_with_retry`: skip permanent URLs outright; otherwise one
attempt, and on nonzero exit exactly one more; success deletes any prior
error entry (rewriting the errors file); double failure records exactly
one error.  `rc1`/`rc2` are the exit-code oracles of the two potential
child processes. -/
def download_with_retry (url : String) (dry_run : Bool) (errors : ErrMap)
    (rc1 rc2 : Int) (now : String) : RetryResult :=
  if is_permanent_error errors url then
    { success := false, errors := errors, launches := 0,
      errorsFileWrites := 0 }
  else
    let r1 := run_svtplay_dl dry_run rc1
    let l1 : Nat := if r1.spawned then 1 else 0
    if r1.rc = 0 then
      if (errors.lookup url).isSome then
        { success := true, errors := eraseKey errors url, launches := l1,
          errorsFileWrites := 1 }
      else
        { success := true, errors := errors, launches := l1,
          errorsFileWrites := 0 }
    else
      let r2 := run_svtplay_dl dry_run rc2
      let l2 : Nat := if r2.spawned then 1 else 0
      if r2.rc = 0 then
        if (errors.lookup url).isSome then
          { success := true, errors := eraseKey errors url,
            launches := l1 + l2, errorsFileWrites := 1 }
        else
          { success := true, errors := errors, launches := l1 + l2,
            errorsFileWrites := 0 }
      else
        { success := false, errors := record_error errors url r2.rc now,
          launches := l1 + l2, errorsFileWrites := 1 }

/-! ## Series state (`series_state.json`)

`check_count` is read through `.get("check_count", 0)`, so the default is
folded into a total `Int` field; `name` keeps its optionality because the
code supplies call-site-dependent defaults for it. -/

structure SeriesEntry where
  name : Option String
  check_count : Int
  last_new_episode_date : Option String
deriving Repr, DecidableEq

abbrev SeriesMap := List (String × SeriesEntry)

/-- `update_series_state(state, show_url, found_new, show_name)`: create
the entry on first encounter, refresh the name (Python
`show_name or entry.get("name", show_url)`), reset the counter and stamp
the date on `found_new`, else increment the counter; store back. -/
def update_series_state (state : SeriesMap) (show_url : String)
    (found_new : Bool) (show_name : String) (now : String) : SeriesMap :=
  let entry := (state.lookup show_url).getD
    { name := some show_name, check_count := 0,
      last_new_episode_date := none }
  let entry := { entry with
    name := some (if show_name = "" then entry.name.getD show_url
                  else show_name) }
  let entry :=
    if found_new then
      { entry with check_count := 0, last_new_episode_date := some now }
    else
      { entry with check_count := entry.check_count + 1 }
  setKey state show_url entry

/-- `find_stale_series(state, stale_days)`: yield
`(url, name, days, checks)` for entries checked at least twice whose
last-new-episode date is at least `stale_days` old.  `daysSince raw`
models `(datetime.now() - datetime.fromisoformat(raw)).days`, `none`
standing for a `ValueError`; a missing or empty date string is falsy in
Python and yields the 9999 sentinel. -/
def find_stale_series (daysSince : String → Option Int) (state : SeriesMap)
    (stale_days : Int) : List (String × String × Int × Int) :=
  state.filterMap (fun p =>
    let checks := p.2.check_count
    if checks < 2 then none
    else
      let days : Int :=
        match p.2.last_new_episode_date with
        | some raw =>
          if raw = "" then 9999
          else
            match daysSince raw with
            | some d => d
            | none => 9999
        | none => 9999
      if stale_days ≤ days then
        some (p.1, p.2.name.getD p.1, days, checks)
      else none)

/-- The stale report printed by `main`: stale series not already in the
movie/series seen set (line 749 of the script). -/
def staleReport (daysSince : String → Option Int) (state : SeriesMap)
    (stale_days : Int) (seen : List String) :
    List (String × String × Int × Int) :=
  (find_stale_series daysSince state stale_days).filter
    (fun t => decide (t.1 ∉ seen))

def prevCheck (state : SeriesMap) (url : String) : Int :=
  ((state.lookup url).map SeriesEntry.check_count).getD 0

def prevLastNew (state : SeriesMap) (url : String) : Option String :=
  (state.lookup url).bind SeriesEntry.last_new_episode_date

def prevName (state : SeriesMap) (url : String) : Option String :=
  (state.lookup url).bind SeriesEntry.name

/-! ## Filename sanitization -/

def bannedChar (c : Char) : Bool :=
  c = '<' || c = '>' || c = ':' || c = '"' || c = '/' || c = '\\' ||
    c = '|' || c = '?' || c = '*'

def dotSpace (c : Char) : Bool :=
  c = '.' || c = ' '

/-- `re.sub(r'[<>:"/\\|?*]', "", name)`. -/
def removeBanned (name : String) : List Char :=
  name.toList.filter (fun c => !bannedChar c)

/-- `sanitize_filename`: drop the banned characters, then Python
`str.strip(". ")`, which removes the characters `.` and space from BOTH
ends of the string. -/
def sanitize_filename (name : String) : String :=
  String.mk
    ((((removeBanned name).dropWhile dotSpace).reverse.dropWhile
      dotSpace).reverse)

/-! ## Episode discovery

The relevant slice of the `__NEXT_DATA__` JSON tree: the details object
with its parent typename, the item's own playable path, and the content
modules with their selection items.  `resolve` models
`urljoin("https://www.svtplay.se", path)` (an external library call). -/

structure EpItem where
  path : Option String
deriving Repr, DecidableEq

structure ContentModule where
  id : String
  selection : Option (List EpItem)
deriving Repr, DecidableEq

structure DetailsPage where
  parentType : Option String
  ownPath : Option String
  modules : List ContentModule
deriving Repr, DecidableEq

/-- Module skip rule: `mod_id in ("upcoming", "related")`, or
`mod_id.startswith("details")`, or `"clips" in mod_id`. -/
def skipModuleId (modId : String) : Bool :=
  modId == "upcoming" || modId == "related" ||
    modId.startsWith "details" ||
    decide (1 < (modId.splitOn "clips").length)

/-- `path = _safe_get(...); if path:` — a missing or empty path is
skipped, otherwise resolved against the base URL. -/
def resolveCandidate (resolve : String → String) (p : Option String) :
    Option String :=
  match p with
  | some s => if s = "" then none else some (resolve s)
  | none => none

/-- `discover_episode_urls`: a `Single` parent yields its own playable
URL; otherwise walk the modules in order, skipping the non-episode ones,
appending each selection item's resolved URL if not already present. -/
def discover_episode_urls (resolve : String → String) (d : DetailsPage) :
    List String :=
  if d.parentType = some "Single" then
    match resolveCandidate resolve d.ownPath with
    | some u => [u]
    | none => []
  else
    d.modules.foldl (fun videos m =>
      if skipModuleId m.id then videos
      else
        match m.selection with
        | none => videos
        | some items =>
          items.foldl (fun vs it =>
            match resolveCandidate resolve it.path with
            | some full => if full ∈ vs then vs else vs ++ [full]
            | none => vs) videos) []

/-! Specification-side formulation of episode discovery: collect all
candidate URLs module by module, then deduplicate keeping the first
occurrence of each. -/

def insertNew (vs : List String) (u : String) : List String :=
  if u ∈ vs then vs else vs ++ [u]

def dedupFirstSeen (l : List String) : List String :=
  l.foldl insertNew []

def moduleEpisodeUrls (resolve : String → String) (m : ContentModule) :
    List String :=
  if skipModuleId m.id then []
  else (m.selection.getD []).filterMap
    (fun it => resolveCandidate resolve it.path)

def episodeCandidates (resolve : String → String) (d : DetailsPage) :
    List String :=
  if d.parentType = some "Single" then
    (resolveCandidate resolve d.ownPath).toList
  else
    (d.modules.map (moduleEpisodeUrls resolve)).flatten

/-! ## Orchestrator (`main` processing loop)

One catalog item carries the data `main` derives for it before the
download decision: its canonical URL, whether it is a `Single`, whether
its detail page fetch succeeds (a network oracle), the resolved display
name, and — for series — the discovered episode URL list.  Signal-driven
`stop_requested` is asynchronous and modelled as never set.  File-system
side effects on the two seen files, the series-state file and the errors
file are tracked as write counters in the run state. -/

structure CatalogItem where
  url : String
  isSingle : Bool
  fetchOk : Bool
  name : String
  episodes : List String
deriving Repr, DecidableEq

structure RunState where
  seen : List String
  seen_episodes : List String
  series_state : SeriesMap
  errors : ErrMap
  movies_downloaded : Nat
  episodes_downloaded : Nat
  series_checked : Nat
  skipped_seen : Nat
  skipped_permanent : Nat
  errors_this_run : Nat
  seenFileAppends : Nat
  seenEpFileAppends : Nat
  seriesStateWrites : Nat
  errorsFileWrites : Nat
deriving Repr, DecidableEq

def initialRunState (seen seen_episodes : List String)
    (series_state : SeriesMap) (errors : ErrMap) : RunState :=
  { seen := seen, seen_episodes := seen_episodes,
    series_state := series_state, errors := errors,
    movies_downloaded := 0, episodes_downloaded := 0, series_checked := 0,
    skipped_seen := 0, skipped_permanent := 0, errors_this_run := 0,
    seenFileAppends := 0, seenEpFileAppends := 0, seriesStateWrites := 0,
    errorsFileWrites := 0 }

def totalDownloads (s : RunState) : Nat :=
  s.movies_downloaded + s.episodes_downloaded

/-- `dl_limit_reached()`: no limit when `--max-dl` is not positive,
otherwise reached once movies + episodes meets it. -/
def dlLimitReached (maxDl : Int) (s : RunState) : Bool :=
  if maxDl ≤ 0 then false
  else decide (maxDl ≤ (totalDownloads s : Int))

/-- The `new_eps` list of the series path: discovered episodes not in the
episode seen set and not flagged permanent. -/
def newEpisodes (s : RunState) (item : CatalogItem) : List String :=
  item.episodes.filter (fun ep =>
    decide (ep ∉ s.seen_episodes) && !is_permanent_error s.errors ep)

/-- The per-episode download loop of the series path (lines 722-733 of
the script): break once the download limit is reached, otherwise
download with retry, appending to the episode seen set/file on success.
`rc1 url`/`rc2 url` are the exit-code oracles of the two potential
attempts for `url`. -/
def processEpisodes (maxDl : Int) (dryRun : Bool) (rc1 rc2 : String → Int)
    (now : String) : List String → RunState → RunState
  | [], s => s
  | ep :: rest, s =>
    if dlLimitReached maxDl s then s
    else
      let r := download_with_retry ep dryRun s.errors (rc1 ep) (rc2 ep) now
      let s1 := { s with errors := r.errors,
                         errorsFileWrites :=
                           s.errorsFileWrites + r.errorsFileWrites }
      let s2 :=
        if r.success then
          { s1 with
            seen_episodes := s1.seen_episodes ++ [ep],
            episodes_downloaded := s1.episodes_downloaded + 1,
            seenEpFileAppends :=
              s1.seenEpFileAppends + (if dryRun then 0 else 1) }
        else
          { s1 with errors_this_run := s1.errors_this_run + 1 }
      processEpisodes maxDl dryRun rc1 rc2 now rest s2

/-- One iteration of the item loop (lines 626-745 of the script): skip
items already seen, skip items whose detail fetch fails, movie path for
`Single` items, series path otherwise.  The series path counts the
permanently-failed episodes, downloads the new ones, and — except under
`--dry-run` — updates the series state once with
`found_new = len(new_eps) > 0`. -/
def processItem (maxDl : Int) (dryRun : Bool) (rc1 rc2 : String → Int)
    (now : String) (s : RunState) (item : CatalogItem) : RunState :=
  if item.url ∈ s.seen then
    { s with skipped_seen := s.skipped_seen + 1 }
  else if !item.fetchOk then
    { s with errors_this_run := s.errors_this_run + 1 }
  else if item.isSingle then
    if is_permanent_error s.errors item.url then
      { s with skipped_permanent := s.skipped_permanent + 1 }
    else
      let r := download_with_retry item.url dryRun s.errors
        (rc1 item.url) (rc2 item.url) now
      let s1 := { s with errors := r.errors,
                         errorsFileWrites :=
                           s.errorsFileWrites + r.errorsFileWrites }
      if r.success then
        { s1 with
          seen := s1.seen ++ [item.url],
          movies_downloaded := s1.movies_downloaded + 1,
          seenFileAppends :=
            s1.seenFileAppends + (if dryRun then 0 else 1) }
      else
        { s1 with errors_this_run := s1.errors_this_run + 1 }
  else
    let s0 := { s with series_checked := s.series_checked + 1 }
    let newEps := newEpisodes s0 item
    let permSkipped :=
      (item.episodes.filter
        (fun ep => is_permanent_error s0.errors ep)).length
    let s1 := { s0 with
      skipped_permanent := s0.skipped_permanent + permSkipped }
    let foundNew := !newEps.isEmpty
    let s2 := processEpisodes maxDl dryRun rc1 rc2 now newEps s1
    if !dryRun then
      { s2 with
        series_state := update_series_state s2.series_state item.url
          foundNew item.name now,
        seriesStateWrites := s2.seriesStateWrites + 1 }
    else s2

/-- The item loop: before each item, stop if the download limit has been
reached. -/
def runItems (maxDl : Int) (dryRun : Bool) (rc1 rc2 : String → Int)
    (now : String) : List CatalogItem → RunState → RunState
  | [], s => s
  | item :: rest, s =>
    if dlLimitReached maxDl s then s
    else runItems maxDl dryRun rc1 rc2 now rest
      (processItem maxDl dryRun rc1 rc2 now s item)

/-! ## Error accounting: characterization of `record_error` -/

theorem record_error_lookup (errors : ErrMap) (url : String) (rc : Int)
    (now : String) :
    (record_error errors url rc now).lookup url =
      some { fail_count := prevFail errors url + 1,
             permanent :=
               (((errors.lookup url).map ErrorEntry.permanent).getD false
                 || decide (2 < prevFail errors url + 1)),
             last_error := some (errMsg rc),
             last_failure := some now } := by
  unfold record_error prevFail
  cases hl : errors.lookup url with
  | none =>
    have hc : ¬ (2:Int) < 0 + 1 := by norm_num
    simp [hl, defaultErrorEntry, lookup_setKey_self, hc]
  | some e =>
    by_cases hc : (2:Int) < e.fail_count + 1
    · simp [hl, lookup_setKey_self, hc]
    · simp [hl, lookup_setKey_self, hc]

theorem prevFail_record_error (errors : ErrMap) (url : String) (rc : Int)
    (now : String) :
    prevFail (record_error errors url rc now) url
      = prevFail errors url + 1 := by
  unfold prevFail
  rw [record_error_lookup]
  simp
  rw [prevFail]

/-- C1: `record_error` increments the URL's `fail_count` by exactly 1,
stamps `last_error` and `last_failure`, and sets `permanent` to true
exactly when the resulting `fail_count` exceeds 2 (given the store
invariant that an already-permanent entry has at least 2 recorded
failures — every store the script can produce satisfies it); and for a
URL whose entry is flagged permanent, `download_with_retry` returns
failure immediately, launching no downloader process and leaving the
error store untouched. -/
theorem record_error_increments_and_permanent_skips
    (errors : ErrMap) (url : String) (rc : Int) (now : String)
    (dr : Bool) (a b : Int)
    (hinv : is_permanent_error errors url = true →
      2 ≤ prevFail errors url) :
    ((record_error errors url rc now).lookup url =
      some { fail_count := prevFail errors url + 1,
             permanent := decide (2 < prevFail errors url + 1),
             last_error := some (errMsg rc),
             last_failure := some now })
    ∧ (is_permanent_error errors url = true →
        download_with_retry url dr errors a b now =
          { success := false, errors := errors, launches := 0,
            errorsFileWrites := 0 }) := by
  have hperm : (((errors.lookup url).map ErrorEntry.permanent).getD false
      || decide (2 < prevFail errors url + 1))
      = decide (2 < prevFail errors url + 1) := by
    cases hb : ((errors.lookup url).map ErrorEntry.permanent).getD false
    · simp
    · have h2 : 2 ≤ prevFail errors url := by
        apply hinv
        rw [is_permanent_error]
        exact hb
      have h3 : (2:Int) < prevFail errors url + 1 := by omega
      simp [h3]
  constructor
  · have h := record_error_lookup errors url rc now
    rw [hperm] at h
    exact h
  · intro hpe
    unfold download_with_retry
    simp [hpe]

theorem record_error_increments_and_permanent_skips_witness :
    (is_permanent_error ([] : ErrMap) "u" = true →
      2 ≤ prevFail ([] : ErrMap) "u")
    ∧ (((record_error ([] : ErrMap) "u" 1 "T").lookup "u" =
        some { fail_count := prevFail ([] : ErrMap) "u" + 1,
               permanent := decide (2 < prevFail ([] : ErrMap) "u" + 1),
               last_error := some (errMsg 1),
               last_failure := some "T" })
      ∧ (is_permanent_error ([] : ErrMap) "u" = true →
          download_with_retry "u" false ([] : ErrMap) 1 1 "T" =
            { success := false, errors := [], launches := 0,
              errorsFileWrites := 0 })) :=
  ⟨by decide,
   record_error_increments_and_permanent_skips [] "u" 1 "T" false 1 1
     (by decide)⟩

/-- C2: for a URL not flagged permanent, `download_with_retry` (not in
dry-run mode) launches the downloader once, and only on a nonzero exit
once more; a zero exit at either attempt returns success and leaves no
error entry for the URL; two nonzero exits return failure after exactly
one `record_error` call, so the fail counter grows by exactly 1 for the
whole call. -/
theorem download_with_retry_attempt_accounting
    (url now : String) (errors : ErrMap) (a b : Int)
    (hp : is_permanent_error errors url = false) :
    (a = 0 →
      (download_with_retry url false errors a b now).success = true
      ∧ (download_with_retry url false errors a b now).errors.lookup url
          = none
      ∧ (download_with_retry url false errors a b now).launches = 1)
    ∧ (a ≠ 0 → b = 0 →
      (download_with_retry url false errors a b now).success = true
      ∧ (download_with_retry url false errors a b now).errors.lookup url
          = none
      ∧ (download_with_retry url false errors a b now).launches = 2)
    ∧ (a ≠ 0 → b ≠ 0 →
      (download_with_retry url false errors a b now).success = false
      ∧ (download_with_retry url false errors a b now).errors
          = record_error errors url b now
      ∧ prevFail (download_with_retry url false errors a b now).errors url
          = prevFail errors url + 1
      ∧ (download_with_retry url false errors a b now).launches = 2) := by
  refine ⟨?_, ?_, ?_⟩
  · intro ha
    cases hl : errors.lookup url with
    | none =>
      simp [download_with_retry, run_svtplay_dl, hp, ha, hl]
    | some e =>
      simp [download_with_retry, run_svtplay_dl, hp, ha, hl,
        lookup_eraseKey_self]
  · intro ha hb
    cases hl : errors.lookup url with
    | none =>
      simp [download_with_retry, run_svtplay_dl, hp, ha, hb, hl]
    | some e =>
      simp [download_with_retry, run_svtplay_dl, hp, ha, hb, hl,
        lookup_eraseKey_self]
  · intro ha hb
    refine ⟨?_, ?_, ?_, ?_⟩
    · simp [download_with_retry, run_svtplay_dl, hp, ha, hb]
    · simp [download_with_retry, run_svtplay_dl, hp, ha, hb]
    · have he : (download_with_retry url false errors a b now).errors
          = record_error errors url b now := by
        simp [download_with_retry, run_svtplay_dl, hp, ha, hb]
      rw [he, prevFail_record_error]
    · simp [download_with_retry, run_svtplay_dl, hp, ha, hb]

theorem download_with_retry_attempt_accounting_witness :
    (is_permanent_error ([] : ErrMap) "u" = false)
    ∧ ((1 = (0:Int) →
      (download_with_retry "u" false ([] : ErrMap) 1 1 "T").success = true
      ∧ (download_with_retry "u" false ([] : ErrMap) 1 1 "T").errors.lookup
          "u" = none
      ∧ (download_with_retry "u" false ([] : ErrMap) 1 1 "T").launches = 1)
    ∧ ((1:Int) ≠ 0 → 1 = (0:Int) →
      (download_with_retry "u" false ([] : ErrMap) 1 1 "T").success = true
      ∧ (download_with_retry "u" false ([] : ErrMap) 1 1 "T").errors.lookup
          "u" = none
      ∧ (download_with_retry "u" false ([] : ErrMap) 1 1 "T").launches = 2)
    ∧ ((1:Int) ≠ 0 → (1:Int) ≠ 0 →
      (download_with_retry "u" false ([] : ErrMap) 1 1 "T").success = false
      ∧ (download_with_retry "u" false ([] : ErrMap) 1 1 "T").errors
          = record_error ([] : ErrMap) "u" 1 "T"
      ∧ prevFail (download_with_retry "u" false ([] : ErrMap) 1 1 "T").errors
          "u" = prevFail ([] : ErrMap) "u" + 1
      ∧ (download_with_retry "u" false ([] : ErrMap) 1 1 "T").launches
          = 2)) :=
  ⟨by decide,
   download_with_retry_attempt_accounting "u" "T" [] 1 1 (by decide)⟩

/-! ## Filename sanitization -/

theorem head?_dropWhile_false (p : Char → Bool) :
    ∀ (l : List Char) (c : Char),
      (l.dropWhile p).head? = some c → p c = false := by
  intro l
  induction l with
  | nil => intro c hc; simp at hc
  | cons a t ih =>
    intro c hc
    by_cases ha : p a = true
    · rw [List.dropWhile_cons_of_pos ha] at hc
      exact ih c hc
    · rw [List.dropWhile_cons_of_neg ha] at hc
      simp only [List.head?_cons, Option.some.injEq] at hc
      rw [← hc]
      exact Bool.not_eq_true _ |>.mp ha

/-- C4 counterexample: the claim predicts that leading dots and spaces
are left unchanged, so on the input `".a"` (no banned characters, no
trailing dots or spaces) the output would have to be `".a"`; the code's
`str.strip(". ")` removes the leading dot and returns `"a"`. -/
theorem sanitize_filename_keeps_leading_cex :
    sanitize_filename ".a" = "a" ∧ sanitize_filename ".a" ≠ ".a" := by
  constructor <;> decide

/-- C4 (amended): `sanitize_filename` removes every occurrence of
`< > : " / \ | ? *` and trims dots and spaces from BOTH ends of the
result (Python `strip(". ")` strips leading as well as trailing
characters), leaving the characters in between unchanged in their
original order: the output is a contiguous stretch of the
banned-character-filtered input, the dropped prefix and suffix consist
only of dots and spaces, and the output neither starts nor ends with a
dot or space. -/
theorem sanitize_filename_strips_both_ends (s : String) :
    ∃ pre post : List Char,
      removeBanned s = pre ++ (sanitize_filename s).toList ++ post
      ∧ pre.all dotSpace = true
      ∧ post.all dotSpace = true
      ∧ (∀ c, ((sanitize_filename s).toList).head? = some c →
          dotSpace c = false)
      ∧ (∀ c, ((sanitize_filename s).toList).getLast? = some c →
          dotSpace c = false) := by
  set f := removeBanned s with hf
  set l1 := f.dropWhile dotSpace with hl1
  set l2 := l1.reverse.dropWhile dotSpace with hl2
  have hres : (sanitize_filename s).toList = l2.reverse := rfl
  have h1 : f.takeWhile dotSpace ++ l1 = f :=
    List.takeWhile_append_dropWhile dotSpace f
  have h2 : l1.reverse.takeWhile dotSpace ++ l2 = l1.reverse :=
    List.takeWhile_append_dropWhile dotSpace l1.reverse
  have h3 : l1 = l2.reverse ++ (l1.reverse.takeWhile dotSpace).reverse := by
    conv_lhs => rw [← List.reverse_reverse l1, ← h2]
    rw [List.reverse_append]
  refine ⟨f.takeWhile dotSpace,
    (l1.reverse.takeWhile dotSpace).reverse, ?_, ?_, ?_, ?_, ?_⟩
  · rw [hres, List.append_assoc, ← h3, h1]
  · rw [List.all_eq_true]
    intro c hc
    exact List.mem_takeWhile_imp hc
  · rw [List.all_reverse, List.all_eq_true]
    intro c hc
    exact List.mem_takeWhile_imp hc
  · intro c hc
    rw [hres] at hc
    have hne : l2.reverse ≠ [] := by
      intro h
      rw [h] at hc
      simp at hc
    have hhead : l1.head? = some c := by
      rw [h3, List.head?_append_of_ne_nil _ hne]
      exact hc
    exact head?_dropWhile_false dotSpace f c hhead
  · intro c hc
    rw [hres, List.getLast?_reverse] at hc
    exact head?_dropWhile_false dotSpace l1.reverse c hc

/-! ## Stale-series detection

Specification-side formulation: an entry is stale when it has been
checked at least twice and its effective age (9999 for an absent, empty
or unparseable date) meets the threshold. -/

def effectiveDays (daysSince : String → Option Int) (e : SeriesEntry) :
    Int :=
  match e.last_new_episode_date with
  | some raw => if raw = "" then 9999 else (daysSince raw).getD 9999
  | none => 9999

def staleCond (daysSince : String → Option Int) (staleDays : Int)
    (e : SeriesEntry) : Bool :=
  decide (2 ≤ e.check_count)
    && decide (staleDays ≤ effectiveDays daysSince e)

theorem filterMap_if_eq_map_filter {α β : Type} (q : α → Bool)
    (h : α → β) :
    ∀ l : List α,
      (l.filterMap (fun a => if q a then some (h a) else none))
        = (l.filter q).map h := by
  intro l
  induction l with
  | nil => rfl
  | cons a t ih =>
    rw [List.filterMap_cons, List.filter_cons]
    by_cases hq : q a = true
    · simp [hq, ih]
    · simp [hq, ih]

theorem find_stale_series_eq (daysSince : String → Option Int)
    (staleDays : Int) (state : SeriesMap) :
    find_stale_series daysSince state staleDays
      = (state.filter (fun p => staleCond daysSince staleDays p.2)).map
          (fun p => (p.1, p.2.name.getD p.1, effectiveDays daysSince p.2,
            p.2.check_count)) := by
  unfold find_stale_series
  rw [← filterMap_if_eq_map_filter]
  apply List.filterMap_congr
  intro p _
  have hdays : (match p.2.last_new_episode_date with
      | some raw => if raw = "" then (9999:Int) else
          match daysSince raw with | some d => d | none => 9999
      | none => 9999) = effectiveDays daysSince p.2 := by
    unfold effectiveDays
    cases p.2.last_new_episode_date with
    | none => rfl
    | some raw =>
      by_cases hr : raw = ""
      · simp [hr]
      · cases hd : daysSince raw <;> simp [hr, hd]
  by_cases hc : p.2.check_count < 2
  · have hsc : staleCond daysSince staleDays p.2 = false := by
      unfold staleCond
      have h2 : ¬ (2 ≤ p.2.check_count) := by omega
      simp [h2]
    simp [hc, hsc]
  · have h2 : 2 ≤ p.2.check_count := by omega
    by_cases hs : staleDays ≤ effectiveDays daysSince p.2
    · have hsc : staleCond daysSince staleDays p.2 = true := by
        unfold staleCond
        simp [h2, hs]
      simp [hc, hdays, hs, hsc]
    · have hsc : staleCond daysSince staleDays p.2 = false := by
        unfold staleCond
        simp [hs]
      simp [hc, hdays, hs, hsc]

/-- C5: stale detection yields exactly the entries with `check_count` at
least 2 whose effective elapsed days (9999 for an absent or unparseable
`last_new_episode_date`) meet the threshold, and the final report keeps
exactly the yielded series whose URL is not in the movie/series seen
set. -/
theorem stale_detection_spec (daysSince : String → Option Int)
    (staleDays : Int) (state : SeriesMap) (seen : List String) :
    (find_stale_series daysSince state staleDays
      = (state.filter (fun p => staleCond daysSince staleDays p.2)).map
          (fun p => (p.1, p.2.name.getD p.1, effectiveDays daysSince p.2,
            p.2.check_count)))
    ∧ staleReport daysSince state staleDays seen
        = (find_stale_series daysSince state staleDays).filter
            (fun t => decide (t.1 ∉ seen))
    ∧ ∀ t ∈ staleReport daysSince state staleDays seen, t.1 ∉ seen := by
  refine ⟨find_stale_series_eq _ _ _, rfl, ?_⟩
  intro t ht
  have hmem := (List.mem_filter.mp ht).2
  simpa using hmem

/-! ## Series-state updates -/

theorem update_series_none_false (state : SeriesMap) (url name now : String)
    (h : state.lookup url = none) :
    update_series_state state url false name now
      = setKey state url
          { name := some name, check_count := 1,
            last_new_episode_date := none } := by
  unfold update_series_state
  rw [h]
  simp

theorem update_series_some_false (state : SeriesMap)
    (url name now : String) (p : SeriesEntry)
    (h : state.lookup url = some p) :
    update_series_state state url false name now
      = setKey state url
          { name := some (if name = "" then p.name.getD url else name),
            check_count := p.check_count + 1,
            last_new_episode_date := p.last_new_episode_date } := by
  unfold update_series_state
  rw [h]
  simp

/-- C7: with `found_new = true` the entry's `check_count` becomes 0 and
`last_new_episode_date` is stamped to now; with `found_new = false` the
counter grows by 1 and the date is untouched; the stored name becomes
the given name, falling back to the previously stored one when the given
name is empty; and (given the invariant that the stored counter is
non-negative, which every entry the script writes satisfies) the
resulting counter is non-negative. -/
theorem update_series_state_spec (state : SeriesMap) (url : String)
    (found_new : Bool) (name now : String)
    (hcc : 0 ≤ prevCheck state url) :
    ((update_series_state state url found_new name now).lookup url).isSome
      = true
    ∧ (found_new = true →
        prevCheck (update_series_state state url found_new name now) url = 0
        ∧ prevLastNew (update_series_state state url found_new name now) url
            = some now)
    ∧ (found_new = false →
        prevCheck (update_series_state state url found_new name now) url
            = prevCheck state url + 1
        ∧ prevLastNew (update_series_state state url found_new name now) url
            = prevLastNew state url)
    ∧ (name ≠ "" →
        prevName (update_series_state state url found_new name now) url
          = some name)
    ∧ (name = "" → ∀ nm, prevName state url = some nm →
        prevName (update_series_state state url found_new name now) url
          = some nm)
    ∧ 0 ≤ prevCheck (update_series_state state url found_new name now)
        url := by
  unfold prevCheck at hcc
  unfold update_series_state prevCheck prevLastNew prevName
  cases hl : state.lookup url with
  | none =>
    cases found_new <;> simp [hl, lookup_setKey_self]
  | some p =>
    rw [hl] at hcc
    simp at hcc
    cases found_new with
    | false =>
      refine ⟨?_, ?_, ?_, ?_, ?_, ?_⟩
      · simp [hl, lookup_setKey_self]
      · intro h
        simp at h
      · intro h
        refine ⟨?_, ?_⟩
        · simp [hl, lookup_setKey_self]
        · simp [hl, lookup_setKey_self]
      · intro hn
        simp [hl, lookup_setKey_self, hn]
      · intro hn nm hnm
        simp at hnm
        simp [hl, lookup_setKey_self, hn, hnm]
      · simp [hl, lookup_setKey_self]
        omega
    | true =>
      refine ⟨?_, ?_, ?_, ?_, ?_, ?_⟩
      · simp [hl, lookup_setKey_self]
      · intro h
        refine ⟨?_, ?_⟩
        · simp [hl, lookup_setKey_self]
        · simp [hl, lookup_setKey_self]
      · intro h
        simp at h
      · intro hn
        simp [hl, lookup_setKey_self, hn]
      · intro hn nm hnm
        simp at hnm
        simp [hl, lookup_setKey_self, hn, hnm]
      · simp [hl, lookup_setKey_self]

theorem update_series_state_spec_witness :
    (0 ≤ prevCheck ([] : SeriesMap) "u")
    ∧ (((update_series_state ([] : SeriesMap) "u" false "N" "T").lookup
        "u").isSome = true
    ∧ (false = true →
        prevCheck (update_series_state ([] : SeriesMap) "u" false "N" "T")
          "u" = 0
        ∧ prevLastNew
            (update_series_state ([] : SeriesMap) "u" false "N" "T") "u"
            = some "T")
    ∧ (false = false →
        prevCheck (update_series_state ([] : SeriesMap) "u" false "N" "T")
          "u" = prevCheck ([] : SeriesMap) "u" + 1
        ∧ prevLastNew
            (update_series_state ([] : SeriesMap) "u" false "N" "T") "u"
            = prevLastNew ([] : SeriesMap) "u")
    ∧ ("N" ≠ "" →
        prevName (update_series_state ([] : SeriesMap) "u" false "N" "T")
          "u" = some "N")
    ∧ ("N" = "" → ∀ nm, prevName ([] : SeriesMap) "u" = some nm →
        prevName (update_series_state ([] : SeriesMap) "u" false "N" "T")
          "u" = some nm)
    ∧ 0 ≤ prevCheck
        (update_series_state ([] : SeriesMap) "u" false "N" "T") "u") :=
  ⟨by decide, update_series_state_spec [] "u" false "N" "T" (by decide)⟩

/-- C10: the very first `update_series_state` call for a URL with
`found_new = false` creates the entry with `check_count = 1` (default 0,
then incremented); a second such call brings it to 2, at which point the
series already qualifies for stale detection (its absent
`last_new_episode_date` counts as 9999 days) even though it never had a
recorded new episode. -/
theorem first_update_without_new_counts_one (state : SeriesMap)
    (url name now now2 : String) (daysSince : String → Option Int)
    (staleDays : Int) (h0 : state.lookup url = none)
    (hsd : staleDays ≤ 9999) :
    prevCheck (update_series_state state url false name now) url = 1
    ∧ prevCheck (update_series_state
        (update_series_state state url false name now) url false name now2)
        url = 2
    ∧ (url, name, 9999, 2) ∈ find_stale_series daysSince
        (update_series_state
          (update_series_state state url false name now) url false name
          now2) staleDays := by
  have he1 : (update_series_state state url false name now).lookup url
      = some { name := some name, check_count := 1,
               last_new_episode_date := none } := by
    rw [update_series_none_false state url name now h0]
    exact lookup_setKey_self _ _ _
  have he2 : update_series_state
      (update_series_state state url false name now) url false name now2
      = setKey (update_series_state state url false name now) url
          { name := some name, check_count := 2,
            last_new_episode_date := none } := by
    rw [update_series_some_false _ url name now2 _ he1]
    simp
  refine ⟨?_, ?_, ?_⟩
  · simp [prevCheck, he1]
  · rw [he2]
    simp [prevCheck, lookup_setKey_self]
  · have hmem : (url, ({ name := some name, check_count := 2,
                         last_new_episode_date := none } : SeriesEntry)) ∈
        update_series_state
          (update_series_state state url false name now) url false name
          now2 := by
      rw [he2]
      exact mem_setKey_self _ _ _
    unfold find_stale_series
    apply List.mem_filterMap.mpr
    refine ⟨_, hmem, ?_⟩
    have h22 : ¬ ((2:Int) < 2) := by omega
    simp [h22, hsd]

theorem first_update_without_new_counts_one_witness :
    (([] : SeriesMap).lookup "u" = none ∧ (365 : Int) ≤ 9999)
    ∧ (prevCheck (update_series_state ([] : SeriesMap) "u" false "N" "T")
        "u" = 1
    ∧ prevCheck (update_series_state
        (update_series_state ([] : SeriesMap) "u" false "N" "T") "u" false
        "N" "T2") "u" = 2
    ∧ ("u", "N", 9999, 2) ∈ find_stale_series (fun _ => none)
        (update_series_state
          (update_series_state ([] : SeriesMap) "u" false "N" "T") "u"
          false "N" "T2") 365) :=
  ⟨⟨by decide, by decide⟩,
   first_update_without_new_counts_one [] "u" "N" "T" "T2" (fun _ => none)
     365 (by decide) (by decide)⟩

/-! ## Episode discovery -/

theorem foldl_insertNew_items (resolve : String → String)
    (items : List EpItem) :
    ∀ vs : List String,
      items.foldl (fun vs it =>
        match resolveCandidate resolve it.path with
        | some full => if full ∈ vs then vs else vs ++ [full]
        | none => vs) vs
      = (items.filterMap
          (fun it => resolveCandidate resolve it.path)).foldl
          insertNew vs := by
  induction items with
  | nil => intro vs; rfl
  | cons it t ih =>
    intro vs
    rw [List.foldl_cons, List.filterMap_cons]
    cases hr : resolveCandidate resolve it.path with
    | none => simpa [hr] using ih vs
    | some full =>
      rw [List.foldl_cons]
      simpa [hr, insertNew] using ih (insertNew vs full)

theorem foldl_modules_eq (resolve : String → String)
    (ms : List ContentModule) :
    ∀ vs : List String,
      ms.foldl (fun videos m =>
        if skipModuleId m.id then videos
        else
          match m.selection with
          | none => videos
          | some items =>
            items.foldl (fun vs it =>
              match resolveCandidate resolve it.path with
              | some full => if full ∈ vs then vs else vs ++ [full]
              | none => vs) videos) vs
      = ((ms.map (moduleEpisodeUrls resolve)).flatten).foldl
          insertNew vs := by
  induction ms with
  | nil => intro vs; rfl
  | cons m t ih =>
    intro vs
    rw [List.foldl_cons, List.map_cons, List.flatten_cons,
      List.foldl_append]
    rw [ih]
    congr 1
    by_cases hs : skipModuleId m.id = true
    · simp [hs, moduleEpisodeUrls]
    · cases hsel : m.selection with
      | none => simp [hs, hsel, moduleEpisodeUrls]
      | some items =>
        simp only [hs, hsel, moduleEpisodeUrls, Bool.false_eq_true,
          if_false, Option.getD_some]
        exact foldl_insertNew_items resolve items vs

theorem foldl_insertNew_nodup (l : List String) :
    ∀ vs : List String, vs.Nodup → (l.foldl insertNew vs).Nodup := by
  induction l with
  | nil => intro vs h; exact h
  | cons a t ih =>
    intro vs h
    rw [List.foldl_cons]
    apply ih
    unfold insertNew
    by_cases hm : a ∈ vs
    · simpa [hm] using h
    · have : (vs ++ [a]).Nodup := by
        refine List.Nodup.append h (List.nodup_singleton a) ?_
        intro x hx hax
        rw [List.mem_singleton] at hax
        exact hm (hax ▸ hx)
      simpa [hm] using this

/-- C6: episode discovery on a `Single` parent yields the item's own
resolved playable URL (or nothing if absent); otherwise it yields the
resolved selection-item URLs of the content modules taken in order —
skipping modules with id `upcoming` or `related`, ids starting with
`details` and ids containing `clips` — deduplicated keeping the first
occurrence, so the result never contains a URL twice. -/
theorem discover_episode_urls_spec (resolve : String → String)
    (d : DetailsPage) :
    discover_episode_urls resolve d
      = dedupFirstSeen (episodeCandidates resolve d)
    ∧ (discover_episode_urls resolve d).Nodup := by
  have heq : discover_episode_urls resolve d
      = dedupFirstSeen (episodeCandidates resolve d) := by
    unfold discover_episode_urls episodeCandidates dedupFirstSeen
    by_cases hp : d.parentType = some "Single"
    · rw [if_pos hp, if_pos hp]
      cases hr : resolveCandidate resolve d.ownPath with
      | none => simp
      | some u => simp [insertNew]
    · rw [if_neg hp, if_neg hp]
      exact foldl_modules_eq resolve d.modules []
  refine ⟨heq, ?_⟩
  rw [heq]
  unfold dedupFirstSeen
  exact foldl_insertNew_nodup _ _ List.nodup_nil

/-! ## Download limit -/

theorem total_lt_of_not_limit (maxDl : Int) (s : RunState)
    (hpos : 0 < maxDl) (h : dlLimitReached maxDl s = false) :
    (totalDownloads s : Int) < maxDl := by
  unfold dlLimitReached at h
  rw [if_neg (by omega)] at h
  have := of_decide_eq_false h
  omega

theorem processEpisodes_total_le (maxDl : Int) (dryRun : Bool)
    (rc1 rc2 : String → Int) (now : String) (hpos : 0 < maxDl) :
    ∀ (eps : List String) (s : RunState),
      (totalDownloads s : Int) ≤ maxDl →
      (totalDownloads (processEpisodes maxDl dryRun rc1 rc2 now eps s)
        : Int) ≤ maxDl := by
  intro eps
  induction eps with
  | nil => intro s h; exact h
  | cons ep t ih =>
    intro s h
    simp only [processEpisodes]
    by_cases hl : dlLimitReached maxDl s = true
    · rw [if_pos hl]
      exact h
    · rw [if_neg hl]
      have hlt := total_lt_of_not_limit maxDl s hpos
        (Bool.not_eq_true _ |>.mp hl)
      apply ih
      simp only [totalDownloads] at hlt
      cases hsucc : (download_with_retry ep dryRun s.errors (rc1 ep)
          (rc2 ep) now).success
      · simp [totalDownloads]
        omega
      · simp [totalDownloads]
        omega

theorem processItem_total_le (maxDl : Int) (dryRun : Bool)
    (rc1 rc2 : String → Int) (now : String) (item : CatalogItem)
    (s : RunState) (hpos : 0 < maxDl)
    (hlt : (totalDownloads s : Int) < maxDl) :
    (totalDownloads (processItem maxDl dryRun rc1 rc2 now s item) : Int)
      ≤ maxDl := by
  unfold processItem
  simp only [totalDownloads] at hlt
  by_cases h1 : item.url ∈ s.seen
  · rw [if_pos h1]
    simp [totalDownloads]
    omega
  · rw [if_neg h1]
    cases hf : item.fetchOk with
    | false =>
      simp [totalDownloads]
      omega
    | true =>
      cases hsingle : item.isSingle with
      | true =>
        simp only [Bool.not_true, Bool.false_eq_true, if_false, if_true]
        by_cases hperm : is_permanent_error s.errors item.url = true
        · rw [if_pos hperm]
          simp [totalDownloads]
          omega
        · rw [if_neg hperm]
          cases hsucc : (download_with_retry item.url dryRun s.errors
              (rc1 item.url) (rc2 item.url) now).success
          · simp [totalDownloads]
            omega
          · simp [totalDownloads]
            omega
      | false =>
        have hep := processEpisodes_total_le maxDl dryRun rc1 rc2 now hpos
          (newEpisodes { s with series_checked := s.series_checked + 1 }
            item)
          { s with
            series_checked := s.series_checked + 1,
            skipped_permanent := s.skipped_permanent +
              (item.episodes.filter (fun ep =>
                is_permanent_error s.errors ep)).length }
          (by
            simp [totalDownloads]
            omega)
        cases hd : dryRun
        · rw [hd] at hep
          simp only [totalDownloads] at hep ⊢
          simp
          simpa [totalDownloads] using hep
        · rw [hd] at hep
          simp only [totalDownloads] at hep ⊢
          simp
          simpa [totalDownloads] using hep

theorem runItems_total_le (maxDl : Int) (dryRun : Bool)
    (rc1 rc2 : String → Int) (now : String) (hpos : 0 < maxDl) :
    ∀ (items : List CatalogItem) (s : RunState),
      (totalDownloads s : Int) ≤ maxDl →
      (totalDownloads (runItems maxDl dryRun rc1 rc2 now items s) : Int)
        ≤ maxDl := by
  intro items
  induction items with
  | nil => intro s h; exact h
  | cons it t ih =>
    intro s h
    simp only [runItems]
    by_cases hl : dlLimitReached maxDl s = true
    · rw [if_pos hl]
      exact h
    · rw [if_neg hl]
      exact ih _ (processItem_total_le maxDl dryRun rc1 rc2 now it s hpos
        (total_lt_of_not_limit maxDl s hpos
          (Bool.not_eq_true _ |>.mp hl)))

/-- C8: with a positive `--max-dl`, the total number of successful
downloads of one run (movies plus episodes) never exceeds the limit —
the check runs before every item and before every episode — and once
the limit is reached the item loop stops immediately, regardless of how
many items remain. -/
theorem max_dl_bounds_downloads (maxDl : Int) (dryRun : Bool)
    (rc1 rc2 : String → Int) (now : String) (items its : List CatalogItem)
    (s s2 : RunState) (hpos : 0 < maxDl) (h0 : totalDownloads s = 0)
    (hl2 : dlLimitReached maxDl s2 = true) :
    ((totalDownloads (runItems maxDl dryRun rc1 rc2 now items s) : Int)
        ≤ maxDl)
    ∧ runItems maxDl dryRun rc1 rc2 now its s2 = s2 := by
  constructor
  · apply runItems_total_le maxDl dryRun rc1 rc2 now hpos
    rw [h0]
    omega
  · cases its with
    | nil => rfl
    | cons it t =>
      simp only [runItems]
      rw [if_pos hl2]

def limitItemA : CatalogItem :=
  { url := "https://www.svtplay.se/a", isSingle := true, fetchOk := true,
    name := "A", episodes := [] }

def limitItemB : CatalogItem :=
  { url := "https://www.svtplay.se/b", isSingle := true, fetchOk := true,
    name := "B", episodes := [] }

def limitReachedState : RunState :=
  { initialRunState [] [] [] [] with movies_downloaded := 1 }

theorem max_dl_bounds_downloads_witness :
    ((0:Int) < 1 ∧ totalDownloads (initialRunState [] [] [] []) = 0
      ∧ dlLimitReached 1 limitReachedState = true)
    ∧ (((totalDownloads (runItems 1 false (fun _ => 0) (fun _ => 0) "T"
          [limitItemA, limitItemB] (initialRunState [] [] [] [])) : Int)
        ≤ 1)
      ∧ runItems 1 false (fun _ => 0) (fun _ => 0) "T" [limitItemB]
          limitReachedState = limitReachedState) :=
  ⟨⟨by decide, by decide, by decide⟩,
   max_dl_bounds_downloads 1 false (fun _ => 0) (fun _ => 0) "T"
     [limitItemA, limitItemB] [limitItemB] (initialRunState [] [] [] [])
     limitReachedState (by decide) (by decide) (by decide)⟩

/-! ## Series path: series-state updates and dry-run write behaviour -/

theorem processEpisodes_preserves (maxDl : Int) (dryRun : Bool)
    (rc1 rc2 : String → Int) (now : String) :
    ∀ (eps : List String) (s : RunState),
      (processEpisodes maxDl dryRun rc1 rc2 now eps s).series_state
          = s.series_state
      ∧ (processEpisodes maxDl dryRun rc1 rc2 now eps s).seriesStateWrites
          = s.seriesStateWrites
      ∧ (processEpisodes maxDl dryRun rc1 rc2 now eps s).seenFileAppends
          = s.seenFileAppends
      ∧ (dryRun = true →
          (processEpisodes maxDl dryRun rc1 rc2 now eps
            s).seenEpFileAppends = s.seenEpFileAppends) := by
  intro eps
  induction eps with
  | nil =>
    intro s
    exact ⟨rfl, rfl, rfl, fun _ => rfl⟩
  | cons ep t ih =>
    intro s
    simp only [processEpisodes]
    by_cases hl : dlLimitReached maxDl s = true
    · rw [if_pos hl]
      exact ⟨rfl, rfl, rfl, fun _ => rfl⟩
    · rw [if_neg hl]
      cases hsucc : (download_with_retry ep dryRun s.errors (rc1 ep)
          (rc2 ep) now).success
      · have := ih { s with
          errors := (download_with_retry ep dryRun s.errors (rc1 ep)
            (rc2 ep) now).errors,
          errorsFileWrites := s.errorsFileWrites +
            (download_with_retry ep dryRun s.errors (rc1 ep) (rc2 ep)
              now).errorsFileWrites,
          errors_this_run := s.errors_this_run + 1 }
        simpa using this
      · cases hd : dryRun
        · have := ih { s with
            errors := (download_with_retry ep false s.errors (rc1 ep)
              (rc2 ep) now).errors,
            errorsFileWrites := s.errorsFileWrites +
              (download_with_retry ep false s.errors (rc1 ep) (rc2 ep)
                now).errorsFileWrites,
            seen_episodes := s.seen_episodes ++ [ep],
            episodes_downloaded := s.episodes_downloaded + 1,
            seenEpFileAppends := s.seenEpFileAppends + 1 }
          simpa [hd] using this
        · have := ih { s with
            errors := (download_with_retry ep true s.errors (rc1 ep)
              (rc2 ep) now).errors,
            errorsFileWrites := s.errorsFileWrites +
              (download_with_retry ep true s.errors (rc1 ep) (rc2 ep)
                now).errorsFileWrites,
            seen_episodes := s.seen_episodes ++ [ep],
            episodes_downloaded := s.episodes_downloaded + 1,
            seenEpFileAppends := s.seenEpFileAppends + 0 }
          simpa [hd] using this

/-- C3 (amended): on the series path (item not previously seen, detail
fetch succeeded, not a `Single`, not a dry run) the orchestrator updates
the series state exactly once per series item — the per-episode download
loop never writes it — but the `found_new` flag passed to the update
records whether any NEW EPISODE WAS DISCOVERED (the filtered new-episode
list is nonempty), not whether any download succeeded: it is computed
before the downloads and is unaffected by their outcomes. -/
theorem series_state_updated_once_per_item (maxDl : Int)
    (rc1 rc2 : String → Int) (now : String) (item : CatalogItem)
    (s : RunState) (h1 : item.url ∉ s.seen) (h2 : item.fetchOk = true)
    (h3 : item.isSingle = false) :
    (processItem maxDl false rc1 rc2 now s item).seriesStateWrites
        = s.seriesStateWrites + 1
    ∧ (processItem maxDl false rc1 rc2 now s item).series_state
        = update_series_state s.series_state item.url
            (!(newEpisodes { s with series_checked := s.series_checked + 1 }
                item).isEmpty) item.name now := by
  unfold processItem
  rw [if_neg h1, h2, h3]
  have hpre := processEpisodes_preserves maxDl false rc1 rc2 now
    (newEpisodes { s with series_checked := s.series_checked + 1 } item)
    { s with
      series_checked := s.series_checked + 1,
      skipped_permanent := s.skipped_permanent +
        (item.episodes.filter (fun ep =>
          is_permanent_error s.errors ep)).length }
  rcases hpre with ⟨hstate, hwrites, _, _⟩
  simp only [Bool.not_true, Bool.not_false, Bool.false_eq_true, if_false,
    if_true, ite_true, ite_false]
  constructor
  · simp [hwrites]
  · simp [hstate]

def cexSeriesItem : CatalogItem :=
  { url := "https://www.svtplay.se/s", isSingle := false, fetchOk := true,
    name := "S", episodes := ["https://www.svtplay.se/e1"] }

/-- C3 counterexample: a run over one series item with a single newly
discovered episode whose download fails both attempts.  No episode
succeeded, so under the claim the series state would be updated with
`found_new = false` (yielding `check_count = 1` and no stamped date);
the code instead passes `found_new = true` (the episode was discovered),
resetting `check_count` to 0 and stamping `last_new_episode_date`. -/
theorem series_found_new_cex :
    (runItems 0 false (fun _ => 1) (fun _ => 1) "T" [cexSeriesItem]
      (initialRunState [] [] [] [])).episodes_downloaded = 0
    ∧ (runItems 0 false (fun _ => 1) (fun _ => 1) "T" [cexSeriesItem]
        (initialRunState [] [] [] [])).seriesStateWrites = 1
    ∧ (runItems 0 false (fun _ => 1) (fun _ => 1) "T" [cexSeriesItem]
        (initialRunState [] [] [] [])).series_state.lookup
        "https://www.svtplay.se/s"
        = some { name := some "S", check_count := 0,
                 last_new_episode_date := some "T" }
    ∧ (runItems 0 false (fun _ => 1) (fun _ => 1) "T" [cexSeriesItem]
        (initialRunState [] [] [] [])).series_state
        ≠ update_series_state [] "https://www.svtplay.se/s" false "S"
            "T" := by
  refine ⟨?_, ?_, ?_, ?_⟩ <;> decide

theorem series_state_updated_once_per_item_witness :
    ("https://www.svtplay.se/s" ∉ ([] : List String)
      ∧ cexSeriesItem.fetchOk = true ∧ cexSeriesItem.isSingle = false)
    ∧ ((processItem 0 false (fun _ => 1) (fun _ => 1) "T"
          (initialRunState [] [] [] []) cexSeriesItem).seriesStateWrites
        = (initialRunState [] [] [] []).seriesStateWrites + 1
      ∧ (processItem 0 false (fun _ => 1) (fun _ => 1) "T"
          (initialRunState [] [] [] []) cexSeriesItem).series_state
        = update_series_state (initialRunState [] [] [] []).series_state
            cexSeriesItem.url
            (!(newEpisodes { initialRunState [] [] [] [] with
                series_checked :=
                  (initialRunState [] [] [] []).series_checked + 1 }
                cexSeriesItem).isEmpty) cexSeriesItem.name "T") :=
  ⟨⟨by decide, by decide, by decide⟩,
   series_state_updated_once_per_item 0 (fun _ => 1) (fun _ => 1) "T"
     cexSeriesItem (initialRunState [] [] [] []) (by decide) (by decide)
     (by decide)⟩

theorem processItem_dry_preserves (maxDl : Int) (rc1 rc2 : String → Int)
    (now : String) (item : CatalogItem) (s : RunState) :
    (processItem maxDl true rc1 rc2 now s item).seenFileAppends
        = s.seenFileAppends
    ∧ (processItem maxDl true rc1 rc2 now s item).seenEpFileAppends
        = s.seenEpFileAppends
    ∧ (processItem maxDl true rc1 rc2 now s item).seriesStateWrites
        = s.seriesStateWrites := by
  unfold processItem
  by_cases h1 : item.url ∈ s.seen
  · rw [if_pos h1]
    exact ⟨rfl, rfl, rfl⟩
  · rw [if_neg h1]
    cases hf : item.fetchOk with
    | false => simp
    | true =>
      cases hsingle : item.isSingle with
      | true =>
        simp only [Bool.not_true, Bool.false_eq_true, if_false, if_true]
        by_cases hperm : is_permanent_error s.errors item.url = true
        · rw [if_pos hperm]
          exact ⟨rfl, rfl, rfl⟩
        · rw [if_neg hperm]
          cases hsucc : (download_with_retry item.url true s.errors
              (rc1 item.url) (rc2 item.url) now).success
          · simp
          · simp
      | false =>
        have hpre := processEpisodes_preserves maxDl true rc1 rc2 now
          (newEpisodes { s with series_checked := s.series_checked + 1 }
            item)
          { s with
            series_checked := s.series_checked + 1,
            skipped_permanent := s.skipped_permanent +
              (item.episodes.filter (fun ep =>
                is_permanent_error s.errors ep)).length }
        rcases hpre with ⟨_, hwrites, happ, hepapp⟩
        simp only [Bool.not_true, Bool.false_eq_true, if_false, if_true,
          Bool.not_false]
        refine ⟨?_, ?_, ?_⟩
        · simpa using happ
        · simpa using hepapp rfl
        · simpa using hwrites

theorem runItems_dry_preserves (maxDl : Int) (rc1 rc2 : String → Int)
    (now : String) :
    ∀ (items : List CatalogItem) (s : RunState),
      (runItems maxDl true rc1 rc2 now items s).seenFileAppends
          = s.seenFileAppends
      ∧ (runItems maxDl true rc1 rc2 now items s).seenEpFileAppends
          = s.seenEpFileAppends
      ∧ (runItems maxDl true rc1 rc2 now items s).seriesStateWrites
          = s.seriesStateWrites := by
  intro items
  induction items with
  | nil => intro s; exact ⟨rfl, rfl, rfl⟩
  | cons it t ih =>
    intro s
    simp only [runItems]
    by_cases hl : dlLimitReached maxDl s = true
    · rw [if_pos hl]
      exact ⟨rfl, rfl, rfl⟩
    · rw [if_neg hl]
      rcases ih (processItem maxDl true rc1 rc2 now s it) with
        ⟨ha, hb, hc⟩
      rcases processItem_dry_preserves maxDl rc1 rc2 now it s with
        ⟨hd, he, hf⟩
      exact ⟨ha.trans hd, hb.trans he, hc.trans hf⟩

/-- C9: a dry run never appends to either seen file and never writes the
series-state file, but a dry-run attempt still counts as a success (exit
code 0 with no process spawned), so `download_with_retry` deletes a
pre-existing non-permanent error entry for the attempted URL and
rewrites the errors file — dry-run is not read-only with respect to the
error store. -/
theorem dry_run_still_rewrites_error_store (maxDl : Int)
    (rc1 rc2 : String → Int) (now : String) (items : List CatalogItem)
    (s : RunState) (url : String) (errors : ErrMap) (e : ErrorEntry)
    (a b : Int) (hlook : errors.lookup url = some e)
    (hperm : e.permanent = false) :
    ((runItems maxDl true rc1 rc2 now items s).seenFileAppends
        = s.seenFileAppends
    ∧ (runItems maxDl true rc1 rc2 now items s).seenEpFileAppends
        = s.seenEpFileAppends
    ∧ (runItems maxDl true rc1 rc2 now items s).seriesStateWrites
        = s.seriesStateWrites)
    ∧ download_with_retry url true errors a b now
        = { success := true, errors := eraseKey errors url, launches := 0,
            errorsFileWrites := 1 } := by
  constructor
  · exact runItems_dry_preserves maxDl rc1 rc2 now items s
  · have hp : is_permanent_error errors url = false := by
      simp [is_permanent_error, hlook, hperm]
    simp [download_with_retry, run_svtplay_dl, hp, hlook]

def dryRunErrors : ErrMap :=
  [("u", { fail_count := 1, permanent := false,
           last_error := none, last_failure := none })]

theorem dry_run_still_rewrites_error_store_witness :
    (dryRunErrors.lookup "u"
        = some { fail_count := 1, permanent := false,
                 last_error := none, last_failure := none }
      ∧ ({ fail_count := 1, permanent := false, last_error := none,
           last_failure := none } : ErrorEntry).permanent = false)
    ∧ (((runItems 0 true (fun _ => 1) (fun _ => 1) "T" [cexSeriesItem]
          (initialRunState [] [] [] [])).seenFileAppends
        = (initialRunState [] [] [] []).seenFileAppends
    ∧ (runItems 0 true (fun _ => 1) (fun _ => 1) "T" [cexSeriesItem]
          (initialRunState [] [] [] [])).seenEpFileAppends
        = (initialRunState [] [] [] []).seenEpFileAppends
    ∧ (runItems 0 true (fun _ => 1) (fun _ => 1) "T" [cexSeriesItem]
          (initialRunState [] [] [] [])).seriesStateWrites
        = (initialRunState [] [] [] []).seriesStateWrites)
    ∧ download_with_retry "u" true dryRunErrors 1 1 "T"
        = { success := true, errors := eraseKey dryRunErrors "u",
            launches := 0, errorsFileWrites := 1 }) :=
  ⟨⟨by decide, by decide⟩,
   dry_run_still_rewrites_error_store 0 (fun _ => 1) (fun _ => 1) "T"
     [cexSeriesItem] (initialRunState [] [] [] []) "u" dryRunErrors
     { fail_count := 1, permanent := false, last_error := none,
       last_failure := none } 1 1 (by decide) (by decide)⟩

end Svtplay
